import Mathlib

/-!
Shallow embedding of `palm_rlhf_pytorch/reward.py`: a `RewardModel` that wraps
a PaLM backbone with a scalar (regression) or binned (classification) reward
head.  Tensors are modelled as nested lists of rationals; batch of token
sequences as `List (List ℤ)`.  The PaLM backbone and the helpers
`masked_mean` / `gumbel_sample` live outside the provided sources and are
modelled from the spec where noted.
-/

set_option autoImplicit false

/-- Dot product of two rational vectors (the core of a linear layer). -/
def dot (a b : List ℚ) : ℚ :=
  (List.zipWith (fun x y => x * y) a b).sum

/-- `F.mse_loss(pred, labels)` with the default mean reduction: the mean of
the squared element-wise differences (reward.py line 133). -/
def mse_loss (pred labels : List ℚ) : ℚ :=
  (List.zipWith (fun p l => (p - l) ^ 2) pred labels).sum / (pred.length : ℚ)

/-- Embedding dimension of a `[seq, dim]` slice: length of its first row. -/
def dimOf (s : List (List ℚ)) : ℕ :=
  (s.headD []).length

/-- Column `d` of a `[seq, dim]` slice (out-of-range entries default to 0). -/
def col (s : List (List ℚ)) (d : ℕ) : List ℚ :=
  s.map (fun r => r.getD d 0)

/-- Column `d` of a `[seq, dim]` slice with entries outside the boolean mask
zeroed out. -/
def maskedCol (s : List (List ℚ)) (m : List Bool) (d : ℕ) : List ℚ :=
  (s.zip m).map (fun p => if p.2 then p.1.getD d 0 else 0)

/-- Unweighted mean over the sequence dimension of one `[seq, dim]` slice. -/
def rowMean (s : List (List ℚ)) : List ℚ :=
  (List.range (dimOf s)).map (fun d => (col s d).sum / (s.length : ℚ))

/-- Mean over the sequence dimension of one `[seq, dim]` slice restricted to
positions where the mask is true; the denominator is the number of valid
positions (division by a zero count yields 0 in ℚ, the zero-vector fallback
for a fully masked row). -/
def rowMaskedMean (s : List (List ℚ)) (m : List Bool) : List ℚ :=
  (List.range (dimOf s)).map
    (fun d => (maskedCol s m d).sum / ((m.count true : ℕ) : ℚ))

/-- Modelled from the spec: `masked_mean` is imported from
`palm_rlhf_pytorch/utils.py`, which is not among the provided sources.  Per
spec section 4.3 it reduces per-token embeddings `[batch, seq, dim]` to
`[batch, dim]` by averaging over the sequence dimension restricted to
positions where the optional validity mask is true, with per-example
denominator equal to the count of valid positions; with no mask it averages
over all positions. -/
def masked_mean (seq : List (List (List ℚ))) (mask : Option (List (List Bool))) :
    List (List ℚ) :=
  match mask with
  | none => seq.map rowMean
  | some m => (seq.zip m).map (fun p => rowMaskedMean p.1 p.2)

/-- Index of the first maximum entry of a list (0 for the empty list). -/
def argmaxIdx (l : List ℚ) : ℕ :=
  (l.enum.foldl (fun best p => if p.2 > best.2 then p else best) (0, l.headD 0)).1

/-- Modelled from the spec: `gumbel_sample` is imported from
`palm_rlhf_pytorch/utils.py`, which is not among the provided sources.  Per
spec section 4.4 it draws one discrete category per example via a Gumbel-max
categorical sample, scaling the logits by the temperature before noise
injection; the noise vector is passed explicitly to keep the model pure. -/
def gumbel_sample (logits noise : List ℚ) (temperature : ℚ) : ℕ :=
  argmaxIdx (List.zipWith (fun lg g => lg / temperature + g) logits noise)

/-- `gumbel_sample` applied along the last dimension of a `[batch, bins]`
logit tensor, one sampled index per example. -/
def gumbel_sample_batch (logits noise : List (List ℚ)) (temperature : ℚ) :
    List ℕ :=
  List.zipWith (fun lg g => gumbel_sample lg g temperature) logits noise

/-- Prompt-mask derivation from per-example prompt lengths (reward.py lines
94-98): `repeat(arange(seq_len)) < rearrange(prompt_lengths)` — entry
`[i][j]` is true iff `j < prompt_lengths[i]`. -/
def derivePromptMask (seq_len : ℕ) (lengths : List ℕ) : List (List Bool) :=
  lengths.map (fun L => (List.range seq_len).map (fun j => decide (j < L)))

/-- Segment-embedding blend (reward.py lines 105-110):
`torch.where(mask[..., None], prompt_embed, response_embed)` with the two
`(1, 1, dim)` parameters broadcast over batch and position; positions where
the mask is true get the prompt embedding, the rest the response embedding. -/
def segmentEmbed (pe re : List ℚ) (pm : List (List Bool)) :
    List (List (List ℚ)) :=
  pm.map (fun row => row.map (fun b => if b then pe else re))

/-- Name of the LoRA scope used by the reward model (reward.py line 37). -/
def rewardScope : String := "reward"

/-- Modelled from the spec: the PaLM backbone
(`palm_rlhf_pytorch/palm.py`) is not among the provided sources and the spec
treats it as an external black box (sections 1 and 6).  It exposes an
embedding dimension, a dropout setter, named adapter (LoRA) scopes each with
its own additional parameter set layered on the frozen base weights, the
full parameter set, and an embedding-only forward pass taking tokens, an
optional additive embedding, an adapter-disable flag and the active adapter
scope.  Parameters are identified by name; `loraParams s` is the parameter
set that registering scope `s` creates. -/
structure Palm where
  dim : ℕ
  dropout : ℚ
  baseParams : List String
  loraParams : String → List String
  registered : List String
  embed : List (List ℤ) → Option (List (List (List ℚ))) → Bool →
    Option String → List (List (List ℚ))

/-- Modelled from the spec: `set_dropout` on the backbone (spec section 6). -/
def Palm.set_dropout (p : Palm) (rate : ℚ) : Palm :=
  { p with dropout := rate }

/-- Modelled from the spec: `add_finetune_params(scope, lora_r)` registers a
named adapter scope on the backbone (spec section 6,
`register_adapter_scope(name, rank)`); the rank only sizes the new parameter
set and does not affect parameter identity here. -/
def Palm.add_finetune_params (p : Palm) (scope : String) (lora_r : ℕ) : Palm :=
  let _ := lora_r
  { p with registered := p.registered ++ [scope] }

/-- Modelled from the spec: `palm.parameters()` — all backbone parameters:
the frozen base weights plus the parameters of every registered adapter
scope (spec section 6, `all_parameters()`). -/
def Palm.parameters (p : Palm) : List String :=
  p.baseParams ++ (p.registered.map p.loraParams).flatten

/-- Modelled from the spec: `palm.finetune_parameters(scope)` — the adapter
parameter set of one named scope (spec section 6,
`adapter_parameters(name)`). -/
def Palm.finetune_parameters (p : Palm) (scope : String) : List String :=
  p.loraParams scope

/-- The output head (reward.py lines 58-64): either
`nn.Linear(dim, num_binned_output)` (classification, weight matrix plus
bias) or `nn.Sequential(nn.Linear(dim, 1, bias=False), Rearrange)` squeezing
the trailing singleton dimension (regression, a single weight vector). -/
inductive ToPred where
  | regression (w : List ℚ)
  | classification (w : List (List ℚ)) (b : List ℚ)
deriving DecidableEq

/-- Parameter name of the regression head weight (`to_pred.0.weight`). -/
def headW0 : String := "to_pred.0.weight"

/-- Parameter name of the classification head weight (`to_pred.weight`). -/
def headW : String := "to_pred.weight"

/-- Parameter name of the classification head bias (`to_pred.bias`). -/
def headB : String := "to_pred.bias"

/-- `self.to_pred.parameters()`: the regression head owns one weight tensor
(its linear layer has no bias); the classification head owns a weight and a
bias. -/
def ToPred.parameters : ToPred → List String
  | ToPred.regression _ => [headW0]
  | ToPred.classification _ _ => [headW, headB]

/-- The result of the output head on pooled embeddings: a scalar per example
(regression, trailing dimension squeezed) or a logit vector per example
(classification). -/
inductive HeadOut where
  | reg (v : List ℚ)
  | cls (v : List (List ℚ))
deriving DecidableEq

/-- Applying the output head to pooled `[batch, dim]` embeddings
(reward.py line 123): regression computes `w · v` per example; classification
computes `W v + b` per example. -/
def ToPred.apply : ToPred → List (List ℚ) → HeadOut
  | ToPred.regression w, pooled => HeadOut.reg (pooled.map (fun v => dot w v))
  | ToPred.classification w b, pooled =>
      HeadOut.cls (pooled.map (fun v => List.zipWith (fun wr bk => dot wr v + bk) w b))

/-- Labels supplied to `forward`: per-example regression targets or
per-example integer class indices. -/
inductive Labels where
  | reg (l : List ℚ)
  | cls (l : List ℕ)
deriving DecidableEq

/-- The possible successful results of `forward`: raw per-example scalars,
raw per-example logits, sampled bin indices, a mean-squared-error loss, or a
categorical cross-entropy loss.  The cross-entropy value is kept symbolic as
the pair of its arguments because its numeric value is transcendental; which
arguments reach `F.cross_entropy` is the verifiable content. -/
inductive Output where
  | preds (v : List ℚ)
  | logits (v : List (List ℚ))
  | sampled (v : List ℕ)
  | mseLoss (v : ℚ)
  | ceLoss (logits : List (List ℚ)) (labels : List ℕ)
deriving DecidableEq

/-- Raw inference output of a head result (reward.py lines 129-130). -/
def HeadOut.toOutput : HeadOut → Output
  | HeadOut.reg p => Output.preds p
  | HeadOut.cls p => Output.logits p

/-- Errors raised by the reward model: the two `assert`s of `forward` and
the typed-embedding artifact `headMismatch` for head/label combinations that
cannot arise from a constructed model. -/
inductive RMError where
  | bothPromptInputs
  | samplingWithLabels
  | headMismatch
deriving DecidableEq

/-- The `RewardModel` state after `__init__` (reward.py lines 28-67). -/
structure RewardModel where
  palm : Palm
  reward_lora_scope : Option String
  binned_output : Bool
  prompt_embed : List ℚ
  response_embed : List ℚ
  to_pred : ToPred
  sample_from_bins : Bool
  sample_temperature : ℚ

/-- `RewardModel.__init__` (reward.py lines 29-67).  `copy.deepcopy` is the
identity in this pure model; the freshly initialized `nn.Linear` weights are
arguments (`reg_w` for the regression head, `cls_w` / `cls_b` for the
classification head) because they come from the framework's random
initializer; `torch.zeros(1, 1, dim)` is modelled as the length-`dim` zero
vector it broadcasts to. -/
def RewardModel.init (palm : Palm) (dropout : ℚ) (num_binned_output : ℚ)
    (use_lora : Bool) (lora_r : ℕ) (reward_lora_scope : String)
    (sample_from_bins : Option Bool) (sample_temperature : ℚ)
    (reg_w : List ℚ) (cls_w : List (List ℚ)) (cls_b : List ℚ) : RewardModel :=
  let palm0 := palm.set_dropout dropout
  let scope := if use_lora then some reward_lora_scope else none
  let palm1 := match scope with
    | some s => palm0.add_finetune_params s lora_r
    | none => palm0
  let binned := decide (num_binned_output > 1)
  { palm := palm1
    reward_lora_scope := scope
    binned_output := binned
    prompt_embed := List.replicate palm.dim 0
    response_embed := List.replicate palm.dim 0
    to_pred := if binned then ToPred.classification cls_w cls_b
               else ToPred.regression reg_w
    sample_from_bins := sample_from_bins.getD binned
    sample_temperature := sample_temperature }

/-- `RewardModel.load` (reward.py lines 69-72) together with the generic
persistence facility.  Modelled from the spec: `torch.load` /
`load_state_dict` are external (spec sections 1 and 4.6); the filesystem is a
map from paths to optional state dictionaries and a Scorer's parameter state
is its name-to-tensor mapping.  The state dictionary type. -/
abbrev StateDict : Type := List (String × List ℚ)

/-- Errors of `load`: missing path (the `assert path.exists()` of reward.py
line 71) or a key mismatch between the persisted mapping and the current
parameter structure. -/
inductive LoadError where
  | notFound
  | keyMismatch
deriving DecidableEq

/-- Modelled from the spec: strict `load_state_dict` — the persisted mapping
replaces the entire current state when its keys match the current parameter
structure, and a mismatch surfaces as a loading error, never a silent skip
(spec section 4.6). -/
def load_state_dict (current incoming : StateDict) : Except LoadError StateDict :=
  if incoming.map Prod.fst = current.map Prod.fst then Except.ok incoming
  else Except.error LoadError.keyMismatch

/-- `RewardModel.load(path)` (reward.py lines 69-72): assert the path
exists, then overwrite the whole parameter state from the persisted mapping.
The function returns the new parameter state; an error leaves the caller's
state untouched. -/
def RewardModel.load (fs : String → Option StateDict) (current : StateDict)
    (path : String) : Except LoadError StateDict :=
  match fs path with
  | none => Except.error LoadError.notFound
  | some sd => load_state_dict current sd

/-- `RewardModel.finetune_parameters` (reward.py lines 74-78): the output
head parameters together with either the backbone's adapter parameters for
the configured scope, or all backbone parameters when no scope is
configured.  Read-only: it is a pure function of the model state. -/
def RewardModel.finetune_parameters (rm : RewardModel) : List String :=
  rm.to_pred.parameters ++
    (match rm.reward_lora_scope with
      | some s => rm.palm.finetune_parameters s
      | none => rm.palm.parameters)

/-- The prompt-mask derivation and segment-embedding injection of `forward`
(reward.py lines 92-110): derive the prompt mask from `prompt_lengths` when
supplied, then blend the prompt / response embeddings over it; `none` when
no mask is available (the backbone then receives no extra embedding). -/
def RewardModel.extra_embed (rm : RewardModel) (x : List (List ℤ))
    (prompt_mask : Option (List (List Bool)))
    (prompt_lengths : Option (List ℕ)) : Option (List (List (List ℚ))) :=
  let pm := match prompt_lengths with
    | some ls => some (derivePromptMask (x.headD []).length ls)
    | none => prompt_mask
  pm.map (fun m => segmentEmbed rm.prompt_embed rm.response_embed m)

/-- The embedding / pooling / head pipeline of `forward` (reward.py lines
92-123): segment embedding, backbone embedding-only pass, masked pooling,
output head. -/
def RewardModel.predOf (rm : RewardModel) (x : List (List ℤ))
    (mask : Option (List (List Bool)))
    (prompt_mask : Option (List (List Bool)))
    (prompt_lengths : Option (List ℕ)) (disable_lora : Bool) : HeadOut :=
  let extra := rm.extra_embed x prompt_mask prompt_lengths
  let embeds := rm.palm.embed x extra disable_lora rm.reward_lora_scope
  let pooled := masked_mean embeds mask
  rm.to_pred.apply pooled

/-- `RewardModel.forward` (reward.py lines 80-135).  The Gumbel noise is an
explicit argument to keep the model pure.  The `headMismatch` branches cover
head / label combinations that the Python code never reaches for a model
built by `RewardModel.init` (they would be dynamic type errors there). -/
def RewardModel.forward (rm : RewardModel) (x : List (List ℤ))
    (mask : Option (List (List Bool)))
    (prompt_mask : Option (List (List Bool)))
    (prompt_lengths : Option (List ℕ))
    (labels : Option Labels)
    (disable_lora : Bool)
    (noise : List (List ℚ)) : Except RMError Output :=
  if prompt_mask.isSome && prompt_lengths.isSome then
    Except.error RMError.bothPromptInputs
  else
    let pred := rm.predOf x mask prompt_mask prompt_lengths disable_lora
    if rm.sample_from_bins && rm.binned_output then
      match labels with
      | some _ => Except.error RMError.samplingWithLabels
      | none =>
        match pred with
        | HeadOut.cls logits =>
            Except.ok (Output.sampled
              (gumbel_sample_batch logits noise rm.sample_temperature))
        | HeadOut.reg _ => Except.error RMError.headMismatch
    else
      match labels with
      | none => Except.ok pred.toOutput
      | some lab =>
        if rm.binned_output = false then
          match pred, lab with
          | HeadOut.reg p, Labels.reg l => Except.ok (Output.mseLoss (mse_loss p l))
          | _, _ => Except.error RMError.headMismatch
        else
          match pred, lab with
          | HeadOut.cls p, Labels.cls l => Except.ok (Output.ceLoss p l)
          | _, _ => Except.error RMError.headMismatch

/-- Parameter name of a concrete backbone base weight. -/
def baseW : String := "palm.base.weight"

/-- Parameter name of the concrete adapter weight of the reward scope. -/
def loraW : String := "palm.lora.reward.weight"

/-- A tiny concrete backbone (embedding dimension 1, constant embedding
function) used to evaluate the model on concrete inputs. -/
def palmW : Palm :=
  { dim := 1
    dropout := 0
    baseParams := [baseW]
    loraParams := fun s => if s = rewardScope then [loraW] else []
    registered := []
    embed := fun x _ _ _ => x.map (fun row => row.map (fun _ => [1])) }

/-- A concrete regression-configured scorer (no binning). -/
def rmReg : RewardModel :=
  RewardModel.init palmW (1 / 10) 0 true 8 rewardScope none 1 [2] [] []

/-- A concrete classification-configured scorer with two bins and the
default sampling behavior (sampling enabled). -/
def rmClsSample : RewardModel :=
  RewardModel.init palmW (1 / 10) 2 true 8 rewardScope none 1 [] [[1], [3]] [0, 0]

/-- A concrete classification-configured scorer with two bins and sampling
disabled. -/
def rmClsNoSample : RewardModel :=
  RewardModel.init palmW (1 / 10) 2 true 8 rewardScope (some false) 1 [] [[1], [3]] [0, 0]

/-- A concrete path at which `fsW` stores a state dictionary. -/
def modelPath : String := "model.pt"

/-- A concrete path at which `fsW` stores nothing. -/
def missingPath : String := "missing.pt"

/-- A concrete persisted state dictionary. -/
def sdW : StateDict := [(headW0, [2]), (baseW, [1])]

/-- A concrete filesystem holding `sdW` at `modelPath` only. -/
def fsW : String → Option StateDict :=
  fun p => if p = modelPath then some sdW else none

/-- The sum of squared differences is non-negative. -/
theorem sumSqDiff_nonneg : ∀ (p l : List ℚ),
    0 ≤ (List.zipWith (fun a b => (a - b) ^ 2) p l).sum
  | [], _ => by simp
  | _ :: _, [] => by simp
  | a :: p, b :: l => by
    simp only [List.zipWith_cons_cons, List.sum_cons]
    have h := sumSqDiff_nonneg p l
    have h2 := sq_nonneg (a - b)
    linarith

/-- Mean squared error is non-negative. -/
theorem mseLoss_nonneg (p l : List ℚ) : 0 ≤ mse_loss p l := by
  unfold mse_loss
  apply div_nonneg (sumSqDiff_nonneg p l)
  exact_mod_cast Nat.zero_le p.length

/-- C3: supplying both `prompt_mask` and `prompt_lengths` makes `forward`
fail with the invalid-argument error before any tensor work: the result is
that error for every model, input, label and flag, and is the same whatever
model state or backbone is used (nothing of the model is read first). -/
theorem forward_both_prompt_mask_error (rm rm2 : RewardModel)
    (x x2 : List (List ℤ)) (mask mask2 : Option (List (List Bool)))
    (pm pm2 : List (List Bool)) (pl pl2 : List ℕ)
    (labels labels2 : Option Labels) (d d2 : Bool)
    (noise noise2 : List (List ℚ)) :
    rm.forward x mask (some pm) (some pl) labels d noise
        = Except.error RMError.bothPromptInputs
    ∧ rm.forward x mask (some pm) (some pl) labels d noise
        = rm2.forward x2 mask2 (some pm2) (some pl2) labels2 d2 noise2 := by
  constructor <;> simp [RewardModel.forward]

/-- C2: when sampling applies (`sample_from_bins` and a classification
head), supplying labels makes `forward` raise the sampling-with-labels
error; and no call that supplies labels ever returns a sampled output, for
any model whatsoever. -/
theorem forward_sampling_with_labels_error (rm : RewardModel)
    (x : List (List ℤ)) (mask pm : Option (List (List Bool)))
    (pl : Option (List ℕ)) (lab : Labels) (d : Bool) (noise : List (List ℚ))
    (hs : rm.sample_from_bins = true) (hb : rm.binned_output = true)
    (hpm : (pm.isSome && pl.isSome) = false) :
    rm.forward x mask pm pl (some lab) d noise
        = Except.error RMError.samplingWithLabels
    ∧ ∀ (rm2 : RewardModel) (x2 : List (List ℤ))
        (mask2 pm2 : Option (List (List Bool))) (pl2 : Option (List ℕ))
        (lab2 : Labels) (d2 : Bool) (noise2 : List (List ℚ)) (v : List ℕ),
        rm2.forward x2 mask2 pm2 pl2 (some lab2) d2 noise2
          ≠ Except.ok (Output.sampled v) := by
  constructor
  · simp [RewardModel.forward, hpm, hs, hb]
  · intro rm2 x2 mask2 pm2 pl2 lab2 d2 noise2 v
    unfold RewardModel.forward
    by_cases h1 : (pm2.isSome && pl2.isSome) = true
    · simp [h1]
    · simp only [Bool.not_eq_true] at h1
      by_cases h2 : (rm2.sample_from_bins && rm2.binned_output) = true
      · simp [h1, h2]
      · simp only [Bool.not_eq_true] at h2
        rcases hp : rm2.predOf x2 mask2 pm2 pl2 d2 with p | p <;>
          rcases lab2 with l | l <;>
          by_cases h3 : rm2.binned_output = false <;>
          simp [h1, h2, h3, hp] <;> split <;> simp

/-- C2 witness: the concrete sampling-enabled classification scorer rejects
a labelled call. -/
theorem forward_sampling_with_labels_error_witness :
    RewardModel.forward rmClsSample [[5]] none none none
        (some (Labels.cls [1])) false [[0, 0]]
      = Except.error RMError.samplingWithLabels :=
  (forward_sampling_with_labels_error rmClsSample [[5]] none none none
    (Labels.cls [1]) false [[0, 0]] (by decide) (by decide) (by decide)).1

/-- C1 counterexample: a classification scorer with default sampling
(`sample_from_bins` true) given labels does not return a loss — the call
fails with the sampling-with-labels error, at the concrete input
`x = [[0]]`, `labels = [0]`. -/
theorem forward_labels_loss_cex :
    RewardModel.forward rmClsSample [[0]] none none none
        (some (Labels.cls [0])) false [[0, 0]]
      = Except.error RMError.samplingWithLabels := rfl

/-- C1 (amended): if labels are supplied and sampling does not apply (not
both `sample_from_bins` and a classification head), `forward` returns a
single scalar loss: the mean squared error of the squeezed linear
projection against the label for a regression head — even when
`sample_from_bins` is true — and the categorical cross-entropy of the
unsampled logits against the integer labels for a classification head; no
sampling occurs in this branch. -/
theorem forward_labels_loss (rm : RewardModel) (x : List (List ℤ))
    (mask pm : Option (List (List Bool))) (pl : Option (List ℕ))
    (d : Bool) (noise : List (List ℚ))
    (hpm : (pm.isSome && pl.isSome) = false)
    (hns : ¬(rm.sample_from_bins = true ∧ rm.binned_output = true)) :
    (∀ (w l : List ℚ),
      rm.binned_output = false → rm.to_pred = ToPred.regression w →
      rm.forward x mask pm pl (some (Labels.reg l)) d noise
        = Except.ok (Output.mseLoss (mse_loss
            ((masked_mean
                (rm.palm.embed x (rm.extra_embed x pm pl) d rm.reward_lora_scope)
                mask).map (fun v => dot w v)) l)))
    ∧ (∀ (W : List (List ℚ)) (b : List ℚ) (l : List ℕ),
      rm.binned_output = true → rm.to_pred = ToPred.classification W b →
      rm.forward x mask pm pl (some (Labels.cls l)) d noise
        = Except.ok (Output.ceLoss
            ((masked_mean
                (rm.palm.embed x (rm.extra_embed x pm pl) d rm.reward_lora_scope)
                mask).map
              (fun v => List.zipWith (fun wr bk => dot wr v + bk) W b)) l)) := by
  constructor
  · intro w l hb hw
    have hss : (rm.sample_from_bins && rm.binned_output) = false := by
      simp [hb]
    simp [RewardModel.forward, hpm, hss, hb, RewardModel.predOf, hw, ToPred.apply]
  · intro W b l hb hw
    have hsf : rm.sample_from_bins = false := by
      cases h : rm.sample_from_bins
      · rfl
      · exact absurd ⟨h, hb⟩ hns
    have hss : (rm.sample_from_bins && rm.binned_output) = false := by
      simp [hsf]
    simp [RewardModel.forward, hpm, hss, hsf, hb, RewardModel.predOf, hw,
      ToPred.apply]

/-- C1 witness: the concrete regression scorer with a label returns the
mean-squared-error loss of its projected prediction. -/
theorem forward_labels_loss_witness :
    RewardModel.forward rmReg [[0]] none none none
        (some (Labels.reg [2])) false []
      = Except.ok (Output.mseLoss (mse_loss
          ((masked_mean
              (rmReg.palm.embed [[0]] (rmReg.extra_embed [[0]] none none)
                false rmReg.reward_lora_scope)
              none).map (fun v => dot [2] v)) [2])) :=
  (forward_labels_loss rmReg [[0]] none none none false []
    (by decide) (by decide)).1 [2] [2] (by decide) (by decide)

/-- C7: for a regression-configured scorer, a call without labels returns
the raw per-example scalars of the bias-free linear projection from `dim`
to 1 with the trailing singleton dimension squeezed away (no squashing
function), and a call with labels returns the single non-negative
mean-squared-error scalar between prediction and label. -/
theorem forward_regression_spec (rm : RewardModel) (w : List ℚ)
    (x : List (List ℤ)) (mask pm : Option (List (List Bool)))
    (pl : Option (List ℕ)) (d : Bool) (noise : List (List ℚ))
    (hb : rm.binned_output = false) (hw : rm.to_pred = ToPred.regression w)
    (hpm : (pm.isSome && pl.isSome) = false) :
    rm.forward x mask pm pl none d noise
      = Except.ok (Output.preds
          ((masked_mean
              (rm.palm.embed x (rm.extra_embed x pm pl) d rm.reward_lora_scope)
              mask).map (fun v => dot w v)))
    ∧ ∀ (l : List ℚ),
        rm.forward x mask pm pl (some (Labels.reg l)) d noise
          = Except.ok (Output.mseLoss (mse_loss
              ((masked_mean
                  (rm.palm.embed x (rm.extra_embed x pm pl) d rm.reward_lora_scope)
                  mask).map (fun v => dot w v)) l))
        ∧ 0 ≤ mse_loss
            ((masked_mean
                (rm.palm.embed x (rm.extra_embed x pm pl) d rm.reward_lora_scope)
                mask).map (fun v => dot w v)) l := by
  have hss : (rm.sample_from_bins && rm.binned_output) = false := by
    simp [hb]
  refine ⟨?_, fun l => ⟨?_, mseLoss_nonneg _ _⟩⟩ <;>
    simp [RewardModel.forward, hpm, hss, hb, RewardModel.predOf, hw,
      ToPred.apply, HeadOut.toOutput]

/-- C7 witness: the concrete regression scorer, called without labels,
returns the raw projected scalars. -/
theorem forward_regression_spec_witness :
    RewardModel.forward rmReg [[0]] none none none none false []
      = Except.ok (Output.preds
          ((masked_mean
              (rmReg.palm.embed [[0]] (rmReg.extra_embed [[0]] none none)
                false rmReg.reward_lora_scope)
              none).map (fun v => dot [2] v))) :=
  (forward_regression_spec rmReg [2] [[0]] none none none false []
    (by decide) (by decide) (by decide)).1

/-- C10: a freshly constructed scorer has all-zero prompt and response
segment embeddings, so the additive segment embedding it produces is the
all-zero `[batch, seq, dim]` tensor for every prompt mask: at
initialization the injected embedding depends only on the mask shape, not
on its contents. -/
theorem fresh_segment_embed_zero (palm : Palm) (dropout nbo : ℚ)
    (use_lora : Bool) (lora_r : ℕ) (scope : String) (sfb : Option Bool)
    (st : ℚ) (reg_w : List ℚ) (cls_w : List (List ℚ)) (cls_b : List ℚ) :
    (RewardModel.init palm dropout nbo use_lora lora_r scope sfb st
        reg_w cls_w cls_b).prompt_embed = List.replicate palm.dim 0
    ∧ (RewardModel.init palm dropout nbo use_lora lora_r scope sfb st
        reg_w cls_w cls_b).response_embed = List.replicate palm.dim 0
    ∧ ∀ (pmask : List (List Bool)),
        segmentEmbed
          (RewardModel.init palm dropout nbo use_lora lora_r scope sfb st
            reg_w cls_w cls_b).prompt_embed
          (RewardModel.init palm dropout nbo use_lora lora_r scope sfb st
            reg_w cls_w cls_b).response_embed
          pmask
        = pmask.map (fun row => row.map (fun _ => List.replicate palm.dim 0)) := by
  refine ⟨rfl, rfl, ?_⟩
  intro pmask
  simp [RewardModel.init, segmentEmbed, ite_self]

/-- One derived mask row: positions before `L` are true, the rest false. -/
theorem rangeMaskRow (L seq : ℕ) (h : L ≤ seq) :
    (List.range seq).map (fun j => decide (j < L))
      = List.replicate L true ++ List.replicate (seq - L) false := by
  obtain ⟨k, rfl⟩ : ∃ k, seq = L + k := ⟨seq - L, (Nat.add_sub_cancel' h).symm⟩
  rw [List.range_add, List.map_append, List.map_map]
  congr 1
  · rw [List.eq_replicate_iff]
    refine ⟨by simp, ?_⟩
    intro b hb
    simp only [List.mem_map, List.mem_range] at hb
    obtain ⟨j, hj, rfl⟩ := hb
    exact decide_eq_true hj
  · rw [show L + k - L = k from by omega, List.eq_replicate_iff]
    refine ⟨by simp, ?_⟩
    intro b hb
    simp only [List.mem_map, Function.comp, List.mem_range] at hb
    obtain ⟨j, hj, rfl⟩ := hb
    exact decide_eq_false (by omega)

/-- C4: the prompt mask derived from `prompt_lengths` is, for each example
`i` with `prompt_lengths[i] <= seq`, exactly `prompt_lengths[i]` true
entries followed by false entries; pointwise, entry `[i][j]` is
`j < prompt_lengths[i]`. -/
theorem derivePromptMask_spec (seq : ℕ) (lengths : List ℕ) (i : ℕ)
    (hi : i < lengths.length) (hL : lengths.getD i 0 ≤ seq) :
    (derivePromptMask seq lengths).getD i []
        = List.replicate (lengths.getD i 0) true
            ++ List.replicate (seq - lengths.getD i 0) false
    ∧ (∀ j, j < seq →
        ((derivePromptMask seq lengths).getD i []).getD j false
          = decide (j < lengths.getD i 0))
    ∧ ((derivePromptMask seq lengths).getD i []).count true
        = lengths.getD i 0 := by
  have hi2 : i < (derivePromptMask seq lengths).length := by
    simpa [derivePromptMask] using hi
  have hrow : (derivePromptMask seq lengths).getD i []
      = (List.range seq).map (fun j => decide (j < lengths.getD i 0)) := by
    rw [List.getD_eq_getElem _ _ hi2, List.getD_eq_getElem _ _ hi]
    simp [derivePromptMask]
  have hrep := hrow.trans (rangeMaskRow (lengths.getD i 0) seq hL)
  refine ⟨hrep, ?_, ?_⟩
  · intro j hj
    have hj2 : j < ((List.range seq).map
        (fun j => decide (j < lengths.getD i 0))).length := by
      simpa using hj
    rw [hrow, List.getD_eq_getElem _ _ hj2]
    simp
  · rw [hrep]
    simp [List.count_append, List.count_replicate]

/-- C4 witness: batch 2, sequence length 5, prompt lengths [3, 5] give the
rows [T,T,T,F,F] and [T,T,T,T,T]. -/
theorem derivePromptMask_spec_witness :
    (derivePromptMask 5 [3, 5]).getD 0 [] = [true, true, true, false, false]
    ∧ (derivePromptMask 5 [3, 5]).getD 1 [] = [true, true, true, true, true] := by
  have h0 := derivePromptMask_spec 5 [3, 5] 0 (by decide) (by decide)
  have h1 := derivePromptMask_spec 5 [3, 5] 1 (by decide) (by decide)
  exact ⟨h0.1.trans (by decide), h1.1.trans (by decide)⟩

/-- A fully-true mask keeps every column entry. -/
theorem maskedCol_allTrue (s : List (List ℚ)) (d : ℕ) :
    maskedCol s (List.replicate s.length true) d = col s d := by
  induction s with
  | nil => rfl
  | cons r t ih => simpa [maskedCol, col, List.replicate_succ] using ih

/-- Masked pooling over an all-true mask equals unweighted mean pooling, at
the level of one example. -/
theorem rowMaskedMean_allTrue (s : List (List ℚ)) :
    rowMaskedMean s (List.replicate s.length true) = rowMean s := by
  unfold rowMaskedMean rowMean
  apply List.map_congr_left
  intro d _
  rw [maskedCol_allTrue]
  simp [List.count_replicate]

/-- Masked pooling over the all-true mask of matching shape equals
unweighted mean pooling, at the batch level. -/
theorem masked_mean_allTrue (seq : List (List (List ℚ))) :
    masked_mean seq (some (seq.map (fun s => List.replicate s.length true)))
      = masked_mean seq none := by
  induction seq with
  | nil => rfl
  | cons s t ih => simpa [masked_mean, rowMaskedMean_allTrue] using ih

/-- C9: masked pooling reduces `[batch, seq, dim]` to `[batch, dim]`:
without a mask it is the unweighted mean over the sequence dimension; with
a mask each example is averaged over the positions where its mask row is
true, the denominator being the count of valid positions; and pooling over
an all-true mask equals unweighted mean pooling. -/
theorem masked_mean_spec (seq : List (List (List ℚ))) (m : List (List Bool))
    (hm : m.length = seq.length) :
    masked_mean seq none = seq.map rowMean
    ∧ (masked_mean seq (some m)).length = seq.length
    ∧ (∀ i, i < seq.length →
        (masked_mean seq (some m)).getD i []
          = rowMaskedMean (seq.getD i []) (m.getD i []))
    ∧ (∀ (s : List (List ℚ)) (mk : List Bool) (d : ℕ), d < dimOf s →
        (rowMaskedMean s mk).getD d 0
          = (maskedCol s mk d).sum / ((mk.count true : ℕ) : ℚ))
    ∧ masked_mean seq (some (seq.map (fun s => List.replicate s.length true)))
        = masked_mean seq none := by
  refine ⟨rfl, ?_, ?_, ?_, masked_mean_allTrue seq⟩
  · simp [masked_mean, hm]
  · intro i hi
    have him : i < m.length := by omega
    have hi2 : i < (masked_mean seq (some m)).length := by
      simp [masked_mean, hm, hi]
    rw [List.getD_eq_getElem _ _ hi2, List.getD_eq_getElem _ _ hi,
      List.getD_eq_getElem _ _ him]
    simp [masked_mean]
  · intro s mk d hd
    have hd2 : d < (rowMaskedMean s mk).length := by
      simpa [rowMaskedMean] using hd
    rw [List.getD_eq_getElem _ _ hd2]
    simp [rowMaskedMean]

/-- C9 witness: on a concrete batch, pooling with the all-true mask equals
the unweighted mean. -/
theorem masked_mean_spec_witness :
    masked_mean [[[1], [3]]]
        (some (([[[1], [3]]] : List (List (List ℚ))).map
          (fun s => List.replicate s.length true)))
      = masked_mean [[[1], [3]]] none :=
  (masked_mean_spec [[[1], [3]]] [[true, true]] (by decide)).2.2.2.2

/-- C8: for an available prompt mask, the additive segment embedding has
shape `[batch, seq, dim]` and equals the prompt segment embedding exactly
where the mask is true and the response segment embedding elsewhere, the
two `dim`-vectors broadcast over batch and position; with neither
`prompt_mask` nor `prompt_lengths` supplied, no extra embedding is produced
(`none` reaches the backbone), and with `prompt_lengths` supplied the blend
is applied to the derived mask. -/
theorem segment_embed_spec (pe re : List ℚ) (dim : ℕ)
    (pmask : List (List Bool)) (rm : RewardModel) (x : List (List ℤ))
    (i j : ℕ) (hpe : pe.length = dim) (hre : re.length = dim)
    (hi : i < pmask.length) (hj : j < (pmask.getD i []).length) :
    (segmentEmbed pe re pmask).length = pmask.length
    ∧ ((segmentEmbed pe re pmask).getD i []).length = (pmask.getD i []).length
    ∧ ((segmentEmbed pe re pmask).getD i []).getD j []
        = (if (pmask.getD i []).getD j false then pe else re)
    ∧ (((segmentEmbed pe re pmask).getD i []).getD j []).length = dim
    ∧ rm.extra_embed x none none = none
    ∧ rm.extra_embed x (some pmask) none
        = some (segmentEmbed rm.prompt_embed rm.response_embed pmask)
    ∧ ∀ (ls : List ℕ), rm.extra_embed x none (some ls)
        = some (segmentEmbed rm.prompt_embed rm.response_embed
            (derivePromptMask (x.headD []).length ls)) := by
  have hi2 : i < (segmentEmbed pe re pmask).length := by
    simpa [segmentEmbed] using hi
  have hrow : (segmentEmbed pe re pmask).getD i []
      = (pmask.getD i []).map (fun b => if b then pe else re) := by
    rw [List.getD_eq_getElem _ _ hi2, List.getD_eq_getElem _ _ hi]
    simp [segmentEmbed]
  have hj2 : j < ((pmask.getD i []).map
      (fun b => if b then pe else re)).length := by
    simpa using hj
  have hentry : ((segmentEmbed pe re pmask).getD i []).getD j []
      = (if (pmask.getD i []).getD j false then pe else re) := by
    rw [hrow, List.getD_eq_getElem _ _ hj2, List.getD_eq_getElem _ _ hj]
    simp
  refine ⟨by simp [segmentEmbed], by rw [hrow]; simp, hentry, ?_, rfl, rfl,
    fun ls => rfl⟩
  rw [hentry]
  cases (pmask.getD i []).getD j false <;> simp [hpe, hre]

/-- C8 witness: concrete blend of a one-dimensional prompt and response
embedding over the mask row [T, F]. -/
theorem segment_embed_spec_witness :
    ((segmentEmbed [1] [2] [[true, false]]).getD 0 []).getD 1 [] = [2] :=
  (segment_embed_spec [1] [2] 1 [[true, false]] rmReg [[0, 0]] 0 1
    rfl rfl (by decide) (by decide)).2.2.1

/-- C5: `finetune_parameters` exposes exactly the trainable set: with an
adapter scope configured (`use_lora`), the output head parameters together
with the backbone adapter parameters of that scope — excluding every frozen
base backbone weight; with no adapter scope, the output head parameters
together with all backbone parameters.  It is a pure (read-only) function,
and the head it reports is the single variant selected by the binned flag. -/
theorem finetune_parameters_spec (palm : Palm) (dropout nbo : ℚ)
    (use_lora : Bool) (lora_r : ℕ) (scope : String) (sfb : Option Bool)
    (st : ℚ) (reg_w : List ℚ) (cls_w : List (List ℚ)) (cls_b : List ℚ) :
    (RewardModel.init palm dropout nbo use_lora lora_r scope sfb st
        reg_w cls_w cls_b).to_pred
      = (if nbo > 1 then ToPred.classification cls_w cls_b
         else ToPred.regression reg_w)
    ∧ (use_lora = true →
        (RewardModel.init palm dropout nbo use_lora lora_r scope sfb st
            reg_w cls_w cls_b).finetune_parameters
          = (RewardModel.init palm dropout nbo use_lora lora_r scope sfb st
              reg_w cls_w cls_b).to_pred.parameters ++ palm.loraParams scope)
    ∧ (use_lora = true → ∀ p ∈ palm.baseParams,
        p ∉ (RewardModel.init palm dropout nbo use_lora lora_r scope sfb st
              reg_w cls_w cls_b).to_pred.parameters →
        p ∉ palm.loraParams scope →
        p ∉ (RewardModel.init palm dropout nbo use_lora lora_r scope sfb st
              reg_w cls_w cls_b).finetune_parameters)
    ∧ (use_lora = false →
        (RewardModel.init palm dropout nbo use_lora lora_r scope sfb st
            reg_w cls_w cls_b).finetune_parameters
          = (RewardModel.init palm dropout nbo use_lora lora_r scope sfb st
              reg_w cls_w cls_b).to_pred.parameters ++ palm.parameters)
    ∧ (∀ p ∈ (RewardModel.init palm dropout nbo use_lora lora_r scope sfb st
          reg_w cls_w cls_b).to_pred.parameters,
        p ∈ (RewardModel.init palm dropout nbo use_lora lora_r scope sfb st
          reg_w cls_w cls_b).finetune_parameters) := by
  cases use_lora <;> by_cases hn : nbo > 1 <;>
    simp [RewardModel.init, RewardModel.finetune_parameters,
      Palm.add_finetune_params, Palm.set_dropout, Palm.finetune_parameters,
      Palm.parameters, hn] <;>
    intros <;> simp_all [List.mem_append]

/-- C5 witness: for the concrete adapter-scoped regression scorer, the
trainable set is the head weight plus the adapter weight, and the frozen
base weight is excluded. -/
theorem finetune_parameters_spec_witness :
    rmReg.finetune_parameters
        = rmReg.to_pred.parameters ++ palmW.loraParams rewardScope
    ∧ baseW ∉ rmReg.finetune_parameters := by
  have h := finetune_parameters_spec palmW (1 / 10) 0 true 8 rewardScope
    none 1 [2] [] []
  exact ⟨h.2.1 rfl, h.2.2.1 rfl baseW (by decide) (by decide) (by decide)⟩

/-- C6: `load` fails with the not-found error when the path does not exist
(leaving the current parameter state untouched); when the path exists and
the persisted keys match the current parameter structure it overwrites the
entire state with the persisted mapping; a key mismatch surfaces as a
loading error rather than a silent skip. -/
theorem load_spec (fs : String → Option StateDict) (current : StateDict)
    (path : String) :
    (fs path = none →
      RewardModel.load fs current path = Except.error LoadError.notFound)
    ∧ (∀ sd : StateDict, fs path = some sd →
        sd.map Prod.fst = current.map Prod.fst →
        RewardModel.load fs current path = Except.ok sd)
    ∧ (∀ sd : StateDict, fs path = some sd →
        sd.map Prod.fst ≠ current.map Prod.fst →
        RewardModel.load fs current path = Except.error LoadError.keyMismatch) := by
  refine ⟨fun h => ?_, fun sd h hk => ?_, fun sd h hk => ?_⟩
  · simp [RewardModel.load, h]
  · simp [RewardModel.load, h, load_state_dict, hk]
  · simp [RewardModel.load, h, load_state_dict, hk]

/-- C6 witness: on a concrete filesystem, a missing path gives not-found, a
matching state dictionary is loaded wholesale, and a key mismatch errors. -/
theorem load_spec_witness :
    RewardModel.load fsW sdW missingPath = Except.error LoadError.notFound
    ∧ RewardModel.load fsW sdW modelPath = Except.ok sdW
    ∧ RewardModel.load fsW [(headW0, [2])] modelPath
        = Except.error LoadError.keyMismatch :=
  ⟨(load_spec fsW sdW missingPath).1 (by decide),
    (load_spec fsW sdW modelPath).2.1 sdW (by decide) (by decide),
    (load_spec fsW [(headW0, [2])] modelPath).2.2 sdW (by decide) (by decide)⟩
